import Mathlib

/-!
Shallow embedding of the Coinbase Pro exchange client
(rotkehlchen/exchanges/coinbasepro.py) together with proofs about the
pagination, retry, response-classification, normalization and caching
behaviour of that client.

Modelling conventions:
* Python strings are Lean `String`s; the Python `split` / `endswith` /
  `replace` primitives are re-implemented structurally over `List Char`
  so that every definition is executable by the kernel.
* Decimal amounts (`FVal`) are modelled as `ℚ`.
* Raising an exception is modelled by an explicit error value; a `try`
  block around per-record processing is modelled by a step function
  returning an explicit result (emitted / silently skipped / failed).
* Collaborators that live outside this file of the repository (the asset
  registry `asset_from_coinbasepro`, the field deserializers from
  `rotkehlchen.serialization.deserialize`, the price oracle) are taken as
  parameters; per the specification the registry can fail with
  UnknownAsset or UnsupportedAsset and the deserializers with
  DeserializationError.
-/

namespace CoinbasePro

/-- Decidable equality for Except values, used to evaluate concrete runs. -/
instance {ε α : Type} [DecidableEq ε] [DecidableEq α] : DecidableEq (Except ε α) := fun x y =>
  match x, y with
  | .error a, .error b =>
    if h : a = b then .isTrue (h ▸ rfl)
    else .isFalse (fun hh => by cases hh; exact h rfl)
  | .error _, .ok _ => .isFalse (fun hh => Except.noConfusion hh)
  | .ok _, .error _ => .isFalse (fun hh => Except.noConfusion hh)
  | .ok a, .ok b =>
    if h : a = b then .isTrue (h ▸ rfl)
    else .isFalse (fun hh => by cases hh; exact h rfl)

/-- Python str.split with a one-character separator, over a char list. -/
def splitCharAux (sep : Char) : List Char → List (List Char)
  | [] => [[]]
  | c :: cs =>
    match splitCharAux sep cs with
    | [] => [[]]
    | g :: gs => if c = sep then [] :: g :: gs else (c :: g) :: gs

/-- Python str.split with a one-character separator. -/
def pySplit (sep : Char) (s : String) : List String :=
  (splitCharAux sep s.data).map (fun cs => String.mk cs)

/-- Python str.endswith. -/
def pyEndsWith (s suffix : String) : Bool :=
  suffix.data.isSuffixOf s.data

/-- Python str.replace over char lists, with fuel for structural recursion;
the fuel is always instantiated to more than the length of the scanned list,
so it never runs out. -/
def replaceListAux (pat rep : List Char) : Nat → List Char → List Char
  | 0, cs => cs
  | _+1, [] => []
  | fuel+1, c :: cs =>
    if pat ≠ [] ∧ pat.isPrefixOf (c :: cs) then
      rep ++ replaceListAux pat rep fuel ((c :: cs).drop pat.length)
    else c :: replaceListAux pat rep fuel cs

/-- Python str.replace (all occurrences). -/
def pyReplace (s pat rep : String) : String :=
  String.mk (replaceListAux pat.data rep.data (s.data.length + 1) s.data)

/-- Asset categories relevant to the client: the field asset_type of an
internal asset, collapsed to the cases the source distinguishes. -/
inductive AssetType
  | evmToken
  | ownChain
  | fiat
  | other
  deriving DecidableEq, Repr

/-- An internal (resolved) asset. -/
structure Asset where
  identifier : String
  assetType : AssetType
  deriving DecidableEq, Repr

/-- The chain native asset A_ETH. -/
def A_ETH : Asset := ⟨"ETH", .ownChain⟩

/-- Failure of the asset registry lookup (UnknownAsset / UnsupportedAsset). -/
inductive AssetErr
  | unknown (identifier : String)
  | unsupported (identifier : String)
  deriving DecidableEq, Repr

/-- The collaborator asset_from_coinbasepro: resolves an exchange currency
code to an internal asset or fails with UnknownAsset / UnsupportedAsset. -/
abbrev Resolver := String → Except AssetErr Asset

/-- Field-level deserialization failure (DeserializationError). -/
structure DErr where
  detail : String
  deriving DecidableEq, Repr

/-- Direction of an asset movement (AssetMovementCategory). -/
inductive Category
  | deposit
  | withdrawal
  deriving DecidableEq, Repr

/-- Trade side (TradeType). -/
inductive TradeTy
  | buy
  | sell
  deriving DecidableEq, Repr

/-- The field deserializers imported from rotkehlchen.serialization (they are
collaborators of this file), as abstract parameters: each parses a raw string
field or fails with a DeserializationError. -/
structure Deserial where
  timestampFromDate : String → Except DErr Nat
  movementCategory : String → Except DErr Category
  feeAmount : String → Except DErr ℚ
  assetAmountForcePositive : String → Except DErr ℚ
  assetAmount : String → Except DErr ℚ
  priceAmount : String → Except DErr ℚ
  tradeTy : String → Except DErr TradeTy

/-- Messages emitted to the user-message aggregator or to the logger while
records are skipped. -/
inductive Msg
  | aggWarning (text : String)
  | aggError (text : String)
  | logWarning (text : String)
  | logError (text : String)
  deriving DecidableEq, Repr

/-- Error raised by coinbasepro_to_worldpair: either the product code does
not split into exactly two parts (UnprocessableTradePair) or one of the two
parts fails asset resolution. -/
inductive PairErr
  | unprocessable (pair : String)
  | assetFailure (e : AssetErr)
  deriving DecidableEq, Repr

/-- Embedding of coinbasepro_to_worldpair: split the product code on the dash;
exactly two parts are required, then each part is resolved left to right. -/
def coinbasepro_to_worldpair (resolver : Resolver) (product : String) :
    Except PairErr (Asset × Asset) :=
  let parts := pySplit '-' product
  if parts.length ≠ 2 then .error (.unprocessable product)
  else
    match resolver (parts.getD 0 ""), resolver (parts.getD 1 "") with
    | .error e, _ => .error (.assetFailure e)
    | .ok _, .error e => .error (.assetFailure e)
    | .ok b, .ok q => .ok (b, q)

/-- Embedding of the timestamp fixup inside coinbasepro_deserialize_timestamp:
proper iso8601 needs +00:00 for the timezone, so a trailing +00 is rewritten. -/
def fixIsoSuffix (raw : String) : String :=
  if pyEndsWith raw "+00" then pyReplace raw "+00" "+00:00" else raw

/-- Result of json-parsing a response body, parametrized by the record type
the endpoint returns: a JSON object (only its string fields matter, since the
code reads only the message field), a JSON array of raw records, or text that
is not valid JSON (or another JSON value). -/
inductive JsonBody (α : Type)
  | dict (entries : List (String × String))
  | items (records : List α)
  | invalid
  deriving DecidableEq, Repr

/-- An HTTP response as _api_query sees it: the status code, the raw body
text, its parse result, and the cb-after pagination header. -/
structure HttpResponse (α : Type) where
  status : Nat
  text : String
  body : JsonBody α
  cbAfter : Option String
  deriving DecidableEq, Repr

/-- Python exceptions that can escape _api_query: the two declared ones
(CoinbaseProPermissionError and RemoteError, the latter carrying the status
code when there was one plus the response or connection text), and the
undeclared ones that are not caught anywhere (KeyError and JSONDecodeError
from the 400 branch, NameError when the retry loop never ran). -/
inductive PyExn
  | permissionError (detail : String)
  | remoteError (statusCode : Option Nat) (text : String)
  | keyError (key : String)
  | jsonDecodeError
  | nameError
  deriving DecidableEq, Repr

/-- Value of a Python call that either returns or raises. -/
inductive PyOutcome (α : Type)
  | ok (value : α)
  | raises (e : PyExn)
  deriving DecidableEq, Repr

/-- Lookup of a string key in a parsed JSON object. -/
def lookupStr (entries : List (String × String)) (k : String) : Option String :=
  (entries.find? (fun p => p.1 = k)).map (fun p => p.2)

/-- Embedding of the response interpretation in _api_query after the retry
loop: the 400 branch parses the body as a dict (JSONDecodeError is not caught
here) and reads its message field (KeyError is not caught either), raising
CoinbaseProPermissionError on an invalid-signature message; 403 raises
CoinbaseProPermissionError; any other non-200 status raises RemoteError; a
200 body is parsed as a list, any JSONDecodeError there being converted to a
RemoteError. -/
def interpretResponse (r : HttpResponse α) : PyOutcome (List α × Option String) :=
  if r.status = 400 then
    match r.body with
    | .dict entries =>
      match lookupStr entries "message" with
      | none => .raises (.keyError "message")
      | some m =>
        if m = "invalid signature" then
          .raises (.permissionError "the API secret created an invalid signature")
        else .raises (.remoteError (some r.status) r.text)
    | _ => .raises .jsonDecodeError
  else if r.status = 403 then
    .raises (.permissionError "API key does not have permission")
  else if r.status ≠ 200 then
    .raises (.remoteError (some r.status) r.text)
  else
    match r.body with
    | .items records => .ok (records, r.cbAfter)
    | _ => .raises (.remoteError (some r.status) r.text)

/-- One transport attempt: either a response or a connection-level failure
(requests.exceptions.RequestException) carrying its text. -/
abbrev Transport (α : Type) := Nat → Except String (HttpResponse α)

/-- Embedding of the 429 retry loop of _api_query. The argument rl is the
loop variable retries_left, which the source decrements on every 429 until it
reaches zero; lastResp tracks the response variable assigned on the previous
iteration and i counts the requests already made. Each 429 iteration sleeps
retryLimit / retries_left seconds; the returned list collects those sleep
durations. A connection failure raises RemoteError at once. -/
def retryLoop (limitQ : ℚ) (transport : Transport α)
    (lastResp : Option (HttpResponse α)) (i : Nat) :
    Nat → List ℚ × Except String (Option (HttpResponse α))
  | 0 => ([], .ok lastResp)
  | rl+1 =>
    match transport i with
    | .error e => ([], .error e)
    | .ok r =>
      if r.status = 429 then
        let rest := retryLoop limitQ transport (some r) (i+1) rl
        (limitQ / ((rl + 1 : Nat) : ℚ) :: rest.1, rest.2)
      else ([], .ok (some r))

/-- Embedding of _api_query from the retry loop on: runs the loop with the
configured retry limit as the initial retries_left, then converts a
connection failure to RemoteError and interprets the final response. When
the loop body never ran the response variable was never assigned, which in
Python is a NameError. Returns the sleep durations performed alongside the
outcome. -/
def apiQuery (retryLimit : Nat) (transport : Transport α) :
    List ℚ × PyOutcome (List α × Option String) :=
  let run := retryLoop (retryLimit : ℚ) transport none 0 retryLimit
  (run.1,
    match run.2 with
    | .error e => .raises (.remoteError none e)
    | .ok none => .raises .nameError
    | .ok (some r) => interpretResponse r)

/-- Value stored in a query-options dict (the source stores strings and the
integer pagination limit). -/
inductive OptVal
  | str (s : String)
  | num (n : Nat)
  deriving DecidableEq, Repr

/-- Query options: a Python dict modelled as an association list in insertion
order. -/
abbrev Options := List (String × OptVal)

/-- Python dict assignment: overwrite in place when the key exists, append
otherwise. -/
def setOpt (opts : Options) (k : String) (v : OptVal) : Options :=
  if opts.any (fun p => p.1 = k) then
    opts.map (fun p => if p.1 = k then (k, v) else p)
  else opts ++ [(k, v)]

/-- Abstraction of one successful _api_query call as the paginator sees it:
from the current query options the provider produces a page of records and an
optional cb-after cursor. -/
structure PageServer (α : Type) where
  fetch : Options → List α × Option String

/-- Embedding of the loop body of _paginated_query, with fuel: fetch a page,
yield it, stop when the cursor is absent or the page is shorter than the
limit, otherwise store the cursor in the after query option and continue. -/
def paginatedQuery (srv : PageServer α) (limit : Nat) : Options → Nat → List (List α)
  | _, 0 => []
  | opts, fuel+1 =>
    match srv.fetch opts with
    | (result, afterCursor) =>
      result ::
        (match afterCursor with
        | none => []
        | some c =>
          if result.length < limit then []
          else paginatedQuery srv limit (setOpt opts "after" (.str c)) fuel)

/-- Embedding of _paginated_query: the limit query option is set once before
the loop starts. -/
def paginated_query (srv : PageServer α) (queryOptions : Options) (limit : Nat)
    (fuel : Nat) : List (List α) :=
  paginatedQuery srv limit (setOpt queryOptions "limit" (.num limit)) fuel

/-- The provider-side page chain: PagSeq srv limit opts pages holds when,
starting the protocol at query options opts, the provider hands back exactly
the pages in order, every non-final page comes with a cursor and is not
shorter than the limit (so iteration must continue with the cursor injected
into the after option), and the final page has no cursor or is short (so
iteration must stop). -/
inductive PagSeq (srv : PageServer α) (limit : Nat) : Options → List (List α) → Prop
  | last (opts : Options) (page : List α) (cur : Option String) :
      srv.fetch opts = (page, cur) →
      (cur = none ∨ page.length < limit) →
      PagSeq srv limit opts [page]
  | step (opts : Options) (page : List α) (c : String) (rest : List (List α)) :
      srv.fetch opts = (page, some c) →
      ¬ page.length < limit →
      PagSeq srv limit (setOpt opts "after" (.str c)) rest →
      PagSeq srv limit opts (page :: rest)

/-- A raw remote account entry as used by query_balances; a field is none
when the key is missing from the raw JSON object. -/
structure RawAccount where
  balance : Option String
  currency : Option String
  deriving DecidableEq, Repr

/-- An accumulated balance: amount plus usd value. -/
structure Balance where
  amount : ℚ
  usdValue : ℚ
  deriving DecidableEq, Repr

instance : Add Balance :=
  ⟨fun a b => ⟨a.amount + b.amount, a.usdValue + b.usdValue⟩⟩

/-- The balances mapping: a dict keyed by resolved asset, in insertion
order. -/
abbrev BalanceMap := List (Asset × Balance)

/-- Embedding of defaultdict(Balance) accumulation: the first contribution
for an asset starts from the zero Balance, later ones add in place. -/
def addBalance : BalanceMap → Asset → Balance → BalanceMap
  | [], a, b => [(a, (⟨0, 0⟩ : Balance) + b)]
  | p :: rest, a, b =>
    if p.1 = a then (p.1, p.2 + b) :: rest else p :: addBalance rest a b

/-- Lookup in the balances mapping. -/
def lookupBalance : BalanceMap → Asset → Option Balance
  | [], _ => none
  | p :: rest, a => if p.1 = a then some p.2 else lookupBalance rest a

/-- What processing one remote account does inside the query_balances loop:
silently skip it (zero amount), record a message and skip it (missing key,
deserialization failure, unknown or unsupported currency, price failure), or
contribute a balance for a resolved asset. -/
inductive BalStep
  | skip
  | warn (m : Msg)
  | contribute (a : Asset) (b : Balance)
  deriving DecidableEq, Repr

/-- Embedding of the body of the query_balances account loop, in source
order: deserialize the balance amount (KeyError / DeserializationError are
reported as errors), skip zero amounts silently, resolve the currency
(KeyError an error, UnknownAsset and UnsupportedAsset warnings), ask the
price oracle (a RemoteError there skips only this entry with an error
message), and otherwise contribute amount and amount times price. -/
def balanceStep (d : Deserial) (resolver : Resolver) (oracle : Asset → Option ℚ)
    (acc : RawAccount) : BalStep :=
  match acc.balance with
  | none => .warn (.aggError "Error processing a coinbase pro account balance. Missing key entry for balance.")
  | some rawBal =>
    match d.assetAmount rawBal with
    | .error _ => .warn (.aggError "Error processing a coinbase pro account balance. Check logs for details. Ignoring it.")
    | .ok amount =>
      if amount = 0 then .skip
      else
        match acc.currency with
        | none => .warn (.aggError "Error processing a coinbase pro account balance. Missing key entry for currency.")
        | some cur =>
          match resolver cur with
          | .error (.unknown aid) =>
            .warn (.aggWarning ("Found coinbase pro balance result with unknown asset " ++ aid ++ ". Ignoring it."))
          | .error (.unsupported aid) =>
            .warn (.aggWarning ("Found coinbase pro balance result with unsupported asset " ++ aid ++ ". Ignoring it."))
          | .ok asset =>
            match oracle asset with
            | none => .warn (.aggError "Error processing coinbasepro balance result due to inability to query USD price. Skipping balance entry")
            | some price => .contribute asset ⟨amount, amount * price⟩

/-- One foldl step of the query_balances account loop: apply the outcome of
processing a single account to the accumulated dict and message list. -/
def balanceFoldStep (d : Deserial) (resolver : Resolver)
    (oracle : Asset → Option ℚ) (st : BalanceMap × List Msg)
    (acc : RawAccount) : BalanceMap × List Msg :=
  match balanceStep d resolver oracle acc with
  | .skip => st
  | .warn m => (st.1, st.2 ++ [m])
  | .contribute a b => (addBalance st.1 a b, st.2)

/-- Embedding of the query_balances account loop: fold the accounts in order,
accumulating the balances dict and the emitted messages. -/
def queryBalancesLoop (d : Deserial) (resolver : Resolver)
    (oracle : Asset → Option ℚ) (accounts : List RawAccount) :
    BalanceMap × List Msg :=
  accounts.foldl (balanceFoldStep d resolver oracle) ([], [])

/-- The balance contributions of an account list for one asset: the Balance
values of exactly those accounts whose processing contributes to that
asset. -/
def contribs (d : Deserial) (resolver : Resolver) (oracle : Asset → Option ℚ)
    (accounts : List RawAccount) (a : Asset) : List Balance :=
  accounts.filterMap
    (fun acc =>
      match balanceStep d resolver oracle acc with
      | .contribute a' b => if a' = a then some b else none
      | _ => none)

/-- Embedding of query_balances around the loop: the accounts fetch outcome
is the _api_query result; CoinbaseProPermissionError and RemoteError are
caught and turned into the pair (None, error message), every other exception
propagates, and a successful fetch runs the account loop and returns the
balances with an empty error string. -/
def query_balances (d : Deserial) (resolver : Resolver)
    (oracle : Asset → Option ℚ)
    (fetch : PyOutcome (List RawAccount × Option String)) :
    PyOutcome (Option BalanceMap × String) × List Msg :=
  match fetch with
  | .raises (.permissionError detail) =>
    (.ok (none, "Coinbase Pro API request failed. " ++ detail), [])
  | .raises (.remoteError _ text) =>
    (.ok (none, "Coinbase Pro API request failed. " ++ text), [])
  | .raises e => (.raises e, [])
  | .ok (accounts, _) =>
    let run := queryBalancesLoop d resolver oracle accounts
    (.ok (some run.1, ""), run.2)

/-- A raw account entry as used by create_or_return_account_to_currency_map. -/
structure CacheAccountEntry where
  id : Option String
  currency : Option String
  deriving DecidableEq, Repr

/-- The account-id to asset map, a dict in insertion order. -/
abbrev AccountMap := List (String × Asset)

/-- Python dict assignment for the account map. -/
def insertAccount (m : AccountMap) (k : String) (v : Asset) : AccountMap :=
  if m.any (fun p => p.1 = k) then
    m.map (fun p => if p.1 = k then (k, v) else p)
  else m ++ [(k, v)]

/-- Lookup of an account id in the account map (dict.get with default None). -/
def lookupAccount : AccountMap → String → Option Asset
  | [], _ => none
  | p :: rest, k => if p.1 = k then some p.2 else lookupAccount rest k

/-- What processing one account does while the currency map is built: either
a map entry, or a warning explaining why the account is dropped. Source
order: the currency key is read first, then resolved, then the id key is
read. -/
def accountStep (resolver : Resolver) (a : CacheAccountEntry) :
    Except Msg (String × Asset) :=
  match a.currency with
  | none => .error (.aggWarning "Found coinbase pro account entry with missing currency field. Ignoring it")
  | some cur =>
    match resolver cur with
    | .error (.unsupported aid) =>
      .error (.aggWarning ("Found coinbase pro account with unsupported asset " ++ aid ++ ". Ignoring it."))
    | .error (.unknown aid) =>
      .error (.aggWarning ("Found coinbase pro account result with unknown asset " ++ aid ++ ". Ignoring it."))
    | .ok asset =>
      match a.id with
      | none => .error (.aggWarning "Found coinbase pro account entry with missing id field. Ignoring it")
      | some aid => .ok (aid, asset)

/-- One foldl step of the map-building loop: extend the map on success,
append the warning on failure. -/
def accountFoldStep (resolver : Resolver) (st : AccountMap × List Msg)
    (a : CacheAccountEntry) : AccountMap × List Msg :=
  match accountStep resolver a with
  | .error m => (st.1, st.2 ++ [m])
  | .ok (aid, asset) => (insertAccount st.1 aid asset, st.2)

/-- The warning an account produces while the map is built, if any. -/
def accountErrMsg (resolver : Resolver) (a : CacheAccountEntry) : Option Msg :=
  match accountStep resolver a with
  | .error m => some m
  | .ok _ => none

/-- Embedding of the map-building loop of
create_or_return_account_to_currency_map: each account either extends the
map or is dropped with a warning, never aborting the others. -/
def buildAccountMap (resolver : Resolver) (accounts : List CacheAccountEntry) :
    AccountMap × List Msg :=
  accounts.foldl (accountFoldStep resolver) ([], [])

/-- The client state relevant to the cache: the memoized
account_to_currency field, None until first populated. -/
structure ClientState where
  account_to_currency : Option AccountMap
  deriving DecidableEq, Repr

/-- Embedding of create_or_return_account_to_currency_map: when the cache is
already populated it is returned unchanged without touching the remote;
otherwise the accounts endpoint is queried (the boolean in the result records
whether that remote query happened), the map is built and stored. -/
def create_or_return_account_to_currency_map (resolver : Resolver)
    (st : ClientState) (remoteAccounts : List CacheAccountEntry) :
    AccountMap × ClientState × Bool × List Msg :=
  match st.account_to_currency with
  | some m => (m, st, false, [])
  | none =>
    let run := buildAccountMap resolver remoteAccounts
    (run.1, ⟨some run.1⟩, true, run.2)

/-- The details sub-object of a raw transfer entry; a field is none when the
key is missing. -/
structure TransferDetails where
  crypto_address : Option String
  sent_to_address : Option String
  crypto_transaction_hash : Option String
  fee : Option String
  deriving DecidableEq, Repr

/-- A raw transfer entry from the transfers endpoint; a field is none when
the key is missing (for completed_at, also when the value is null). -/
structure TransferEntry where
  completed_at : Option String
  type : Option String
  account_id : Option String
  details : Option TransferDetails
  amount : Option String
  id : Option String
  deriving DecidableEq, Repr

/-- A normalized asset movement (the fields this file constructs; location is
the constant Location.COINBASEPRO and is omitted). -/
structure AssetMovement where
  category : Category
  address : Option String
  transaction_id : Option String
  timestamp : Nat
  asset : Asset
  amount : ℚ
  fee_asset : Asset
  fee : ℚ
  link : String
  deriving DecidableEq, Repr

/-- A per-record error caught by the record-level except clauses:
DeserializationError, KeyError, or UnknownAsset. -/
inductive RecErr
  | deserialization (e : DErr)
  | missingKey (key : String)
  | unknownAsset (identifier : String)
  deriving DecidableEq, Repr

/-- A reason why a record is skipped by an explicit continue rather than an
exception. -/
inductive Skip
  | notCompleted
  | outOfWindow
  | unmatchedAccount
  deriving DecidableEq, Repr

/-- Result of processing a single raw record inside a try block: a record is
emitted, or silently dropped by a continue, or a caught exception ends its
processing. -/
inductive ProcResult (α : Type)
  | emitted (a : α)
  | skipped (s : Skip)
  | failed (e : RecErr)
  deriving DecidableEq, Repr

/-- Embedding of coinbasepro_deserialize_timestamp applied to an optional
raw field: a missing key raises KeyError, then the iso suffix is fixed up and
the date deserializer (which can fail with DeserializationError) runs. -/
def deserializeTimestampField (d : Deserial) (key : String) (raw : Option String) :
    Except RecErr Nat :=
  match raw with
  | none => .error (.missingKey key)
  | some rawTime =>
    match d.timestampFromDate (fixIsoSuffix rawTime) with
    | .error e => .error (.deserialization e)
    | .ok ts => .ok ts

/-- Embedding of the two suppress(KeyError) blocks reading the details
sub-object: the assignments run in order and the first missing key aborts the
rest of the block, keeping the defaults None / None / zero fee; for a
withdrawal, a fee deserialization failure is not a KeyError and escapes the
suppress block. -/
def extractDetails (d : Deserial) (category : Category)
    (details : Option TransferDetails) :
    Except RecErr (Option String × Option String × ℚ) :=
  match category with
  | .deposit =>
    match details with
    | none => .ok (none, none, 0)
    | some det =>
      match det.crypto_address with
      | none => .ok (none, none, 0)
      | some addr => .ok (some addr, det.crypto_transaction_hash, 0)
  | .withdrawal =>
    match details with
    | none => .ok (none, none, 0)
    | some det =>
      match det.sent_to_address with
      | none => .ok (none, none, 0)
      | some addr =>
        match det.crypto_transaction_hash with
        | none => .ok (some addr, none, 0)
        | some tx =>
          match det.fee with
          | none => .ok (some addr, some tx, 0)
          | some rawFee =>
            match d.feeAmount rawFee with
            | .error e => .error (.deserialization e)
            | .ok f => .ok (some addr, some tx, f)

/-- Python truthiness of the optional transaction id: None and the empty
string are falsy. -/
def txidTruthy : Option String → Bool
  | none => false
  | some s => decide (s ≠ "")

/-- Continuation of the query_online_deposits_withdrawals loop body once the
completion timestamp has been deserialized and found inside the window, in
source order: map the movement type, resolve the account id through the
cached map (skip with a warning when unmatched), read the optional details,
prefix the transaction id with 0x when the asset is the chain native asset or
an EVM token, then deserialize the amount and read the link id. -/
def processTransferRest (d : Deserial) (amap : AccountMap) (ts : Nat)
    (e : TransferEntry) : ProcResult AssetMovement :=
  match e.type with
  | none => .failed (.missingKey "type")
  | some tyRaw =>
    match d.movementCategory tyRaw with
    | .error err => .failed (.deserialization err)
    | .ok category =>
      match e.account_id with
      | none => .failed (.missingKey "account_id")
      | some accId =>
        match lookupAccount amap accId with
        | none => .skipped .unmatchedAccount
        | some asset =>
          match extractDetails d category e.details with
          | .error err => .failed err
          | .ok (address, txid, feeAmt) =>
            let transaction_id :=
              if txidTruthy txid = true ∧ (asset = A_ETH ∨ asset.assetType = .evmToken) then
                txid.map (fun s => "0x" ++ s)
              else txid
            match e.amount with
            | none => .failed (.missingKey "amount")
            | some rawAmount =>
              match d.assetAmountForcePositive rawAmount with
              | .error err => .failed (.deserialization err)
              | .ok amount =>
                match e.id with
                | none => .failed (.missingKey "id")
                | some linkId =>
                  .emitted ⟨category, address, transaction_id, ts, asset,
                            amount, asset, feeAmt, linkId⟩

/-- Embedding of the body of the query_online_deposits_withdrawals entry
loop, in source order: skip entries without a completion timestamp,
deserialize the timestamp, discard timestamps outside the inclusive window,
then continue with processTransferRest. -/
def processTransfer (d : Deserial) (amap : AccountMap) (startTs endTs : Nat)
    (e : TransferEntry) : ProcResult AssetMovement :=
  match e.completed_at with
  | none => .skipped .notCompleted
  | some _ =>
    match deserializeTimestampField d "completed_at" e.completed_at with
    | .error err => .failed err
    | .ok ts =>
      if ts < startTs ∨ endTs < ts then .skipped .outOfWindow
      else processTransferRest d amap ts e

/-- Messages the movement loop emits when a record-level exception is
caught. -/
def transferFailMsgs : RecErr → List Msg
  | .unknownAsset aid =>
    [.aggWarning ("Found unknown Coinbasepro asset " ++ aid ++ ". Ignoring its deposit/withdrawal.")]
  | .deserialization _ =>
    [.aggError "Failed to deserialize a Coinbasepro deposit/withdrawal. Check logs for details. Ignoring it.",
     .logError "Error processing a coinbasepro deposit/withdrawal."]
  | .missingKey k =>
    [.aggError "Failed to deserialize a Coinbasepro deposit/withdrawal. Check logs for details. Ignoring it.",
     .logError ("Error processing a coinbasepro deposit/withdrawal. Missing key entry for " ++ k ++ ".")]

/-- Messages a silent skip emits in the movement loop. -/
def transferSkipMsgs : Skip → List Msg
  | .notCompleted =>
    [.logWarning "Skipping coinbase pro deposit/withdrawal due to not having been completed"]
  | .outOfWindow => []
  | .unmatchedAccount =>
    [.logWarning "Skipping coinbase pro asset_movement due to inability to match account id to an asset"]

/-- Embedding of the query_online_deposits_withdrawals entry loop over the
already-collected raw entries. -/
def processTransfers (d : Deserial) (amap : AccountMap) (startTs endTs : Nat) :
    List TransferEntry → List AssetMovement × List Msg
  | [] => ([], [])
  | e :: rest =>
    let tail := processTransfers d amap startTs endTs rest
    match processTransfer d amap startTs endTs e with
    | .emitted m => (m :: tail.1, tail.2)
    | .skipped s => (tail.1, transferSkipMsgs s ++ tail.2)
    | .failed err => (tail.1, transferFailMsgs err ++ tail.2)

/-- Embedding of query_online_deposits_withdrawals after pagination: the raw
withdrawal batches are collected first, then the raw deposit batches, and the
concatenation is processed entry by entry against the account map and the
inclusive timestamp window. -/
def query_online_deposits_withdrawals (d : Deserial) (amap : AccountMap)
    (startTs endTs : Nat) (rawWithdrawals rawDeposits : List TransferEntry) :
    List AssetMovement × List Msg :=
  processTransfers d amap startTs endTs (rawWithdrawals ++ rawDeposits)

/-- A raw fill entry from the fills endpoint; a field is none when the key is
missing. -/
structure FillEntry where
  created_at : Option String
  side : Option String
  size : Option String
  price : Option String
  fee : Option String
  trade_id : Option String
  order_id : Option String
  deriving DecidableEq, Repr

/-- A normalized trade (location, again a constant, is omitted; notes is the
constant empty string). -/
structure Trade where
  timestamp : Nat
  base_asset : Asset
  quote_asset : Asset
  trade_type : TradeTy
  amount : ℚ
  rate : ℚ
  fee : ℚ
  fee_currency : Asset
  link : String
  deriving DecidableEq, Repr

/-- Continuation of the fill loop body once the creation timestamp has been
deserialized and found inside the window: build the trade, deserializing
side, size, price and fee and concatenating trade id and order id into the
link; the fee currency is always the quote asset. -/
def processFillRest (d : Deserial) (base quote : Asset) (ts : Nat)
    (f : FillEntry) : ProcResult Trade :=
  match f.side with
  | none => .failed (.missingKey "side")
  | some sideRaw =>
    match d.tradeTy sideRaw with
    | .error err => .failed (.deserialization err)
    | .ok side =>
      match f.size with
      | none => .failed (.missingKey "size")
      | some sizeRaw =>
        match d.assetAmount sizeRaw with
        | .error err => .failed (.deserialization err)
        | .ok amount =>
          match f.price with
          | none => .failed (.missingKey "price")
          | some priceRaw =>
            match d.priceAmount priceRaw with
            | .error err => .failed (.deserialization err)
            | .ok rate =>
              match f.fee with
              | none => .failed (.missingKey "fee")
              | some feeRaw =>
                match d.feeAmount feeRaw with
                | .error err => .failed (.deserialization err)
                | .ok feeVal =>
                  match f.trade_id with
                  | none => .failed (.missingKey "trade_id")
                  | some tid =>
                    match f.order_id with
                    | none => .failed (.missingKey "order_id")
                    | some oid =>
                      .emitted ⟨ts, base, quote, side, amount, rate,
                                feeVal, quote, tid ++ "_" ++ oid⟩

/-- Embedding of the body of the fill loop of query_online_trade_history, in
source order: deserialize the creation timestamp, discard timestamps outside
the inclusive window, then continue with processFillRest. -/
def processFill (d : Deserial) (base quote : Asset) (startTs endTs : Nat)
    (f : FillEntry) : ProcResult Trade :=
  match deserializeTimestampField d "created_at" f.created_at with
  | .error err => .failed err
  | .ok ts =>
    if ts < startTs ∨ endTs < ts then .skipped .outOfWindow
    else processFillRest d base quote ts f

/-- Messages the fill loop emits when a record-level exception is caught. -/
def fillFailMsgs : RecErr → List Msg
  | .unknownAsset aid =>
    [.aggWarning ("Found unknown Coinbasepro asset " ++ aid ++ ". Ignoring the trade.")]
  | .deserialization _ =>
    [.aggError "Failed to deserialize a coinbasepro trade. Check logs for details. Ignoring it.",
     .logError "Error processing a coinbasepro fill."]
  | .missingKey k =>
    [.aggError "Failed to deserialize a coinbasepro trade. Check logs for details. Ignoring it.",
     .logError ("Error processing a coinbasepro fill. Missing key entry for " ++ k ++ ".")]

/-- Embedding of the fill loop of query_online_trade_history for one
product. -/
def processFills (d : Deserial) (base quote : Asset) (startTs endTs : Nat) :
    List FillEntry → List Trade × List Msg
  | [] => ([], [])
  | f :: rest =>
    let tail := processFills d base quote startTs endTs rest
    match processFill d base quote startTs endTs f with
    | .emitted t => (t :: tail.1, tail.2)
    | .skipped _ => (tail.1, tail.2)
    | .failed err => (tail.1, fillFailMsgs err ++ tail.2)

/-- A raw order entry from the orders endpoint; only its product_id is used
by the source. -/
structure OrderEntry where
  product_id : Option String
  deriving DecidableEq, Repr

/-- Embedding of the order loop of query_online_trade_history. An order
without a product id is reported and skipped; a product already queried or
not in the available products set is skipped silently; otherwise the fills
for the product are fetched (abstracted by fillsFor) and the product code is
split into the asset pair, where UnprocessableTradePair and UnknownAsset are
caught with a warning but UnsupportedAsset is not caught by any except clause
and therefore propagates, aborting the whole query: that raise is the .error
case of the result. -/
def tradeLoop (d : Deserial) (resolver : Resolver) (available : List String)
    (fillsFor : String → List FillEntry) (startTs endTs : Nat) :
    List String → List OrderEntry → Except String (List Trade × List Msg)
  | _, [] => .ok ([], [])
  | queried, o :: os =>
    match o.product_id with
    | none =>
      match tradeLoop d resolver available fillsFor startTs endTs queried os with
      | .error aid => .error aid
      | .ok (ts, msgs) =>
        .ok (ts, .aggError "Skipping coinbasepro trade since it lacks a product_id. Check logs for details" ::
                 .logError "Error processing a coinbasepro order." :: msgs)
    | some pid =>
      if pid ∈ queried ∨ pid ∉ available then
        tradeLoop d resolver available fillsFor startTs endTs queried os
      else
        let fills := fillsFor pid
        match coinbasepro_to_worldpair resolver pid with
        | .error (.unprocessable p) =>
          match tradeLoop d resolver available fillsFor startTs endTs (pid :: queried) os with
          | .error aid => .error aid
          | .ok (ts, msgs) =>
            .ok (ts, .aggWarning ("Found unprocessable Coinbasepro pair " ++ p ++ ". Ignoring the trade.") :: msgs)
        | .error (.assetFailure (.unknown aid)) =>
          match tradeLoop d resolver available fillsFor startTs endTs (pid :: queried) os with
          | .error aid' => .error aid'
          | .ok (ts, msgs) =>
            .ok (ts, .aggWarning ("Found unknown Coinbasepro asset " ++ aid ++ ". Ignoring the trade.") :: msgs)
        | .error (.assetFailure (.unsupported aid)) => .error aid
        | .ok (base, quote) =>
          let pf := processFills d base quote startTs endTs fills
          match tradeLoop d resolver available fillsFor startTs endTs (pid :: queried) os with
          | .error aid => .error aid
          | .ok (ts, msgs) => .ok (pf.1 ++ ts, pf.2 ++ msgs)

/-- Embedding of query_online_trade_history after pagination: process the
collected orders with an initially empty queried-products set; the result
echoes the queried time range, and the .error case is an uncaught
UnsupportedAsset escaping to the caller. -/
def query_online_trade_history (d : Deserial) (resolver : Resolver)
    (available : List String) (fillsFor : String → List FillEntry)
    (startTs endTs : Nat) (orders : List OrderEntry) :
    Except String (List Trade × List Msg × Nat × Nat) :=
  match tradeLoop d resolver available fillsFor startTs endTs [] orders with
  | .error aid => .error aid
  | .ok (ts, msgs) => .ok (ts, msgs, startTs, endTs)

/-- Checker used by later statements: whether an outcome is a raised
RemoteError. -/
def isRemoteError : PyOutcome α → Bool
  | .raises (.remoteError _ _) => true
  | _ => false

/-- Sample resolved asset for witnesses. -/
def btcAsset : Asset := ⟨"BTC", .ownChain⟩

/-- Sample resolved asset for witnesses. -/
def usdAsset : Asset := ⟨"USD", .fiat⟩

/-- Sample resolved EVM token for witnesses. -/
def linkAsset : Asset := ⟨"LINK", .evmToken⟩

/-- Sample registry for witnesses: a few known codes, one unsupported code,
everything else unknown. -/
def sampleResolver : Resolver := fun s =>
  if s = "BTC" then .ok btcAsset
  else if s = "USD" then .ok usdAsset
  else if s = "ETH" then .ok A_ETH
  else if s = "LINK" then .ok linkAsset
  else if s = "XXX" then .error (.unsupported "XXX")
  else .error (.unknown s)

/-- Parse a nonempty all-digit string as a natural number (kernel-reducible
replacement for toNat?). -/
def parseNatLit (s : String) : Option Nat :=
  if s.data ≠ [] ∧ s.data.all Char.isDigit then
    some (s.data.foldl (fun n c => n * 10 + (c.toNat - 48)) 0)
  else none

/-- Sample rational field parser for witnesses. -/
def parseQLit (s : String) : Except DErr ℚ :=
  match parseNatLit s with
  | some n => .ok (n : ℚ)
  | none => .error ⟨s⟩

/-- Sample timestamp parser for witnesses. -/
def parseTsLit (s : String) : Except DErr Nat :=
  match parseNatLit s with
  | some n => .ok n
  | none => .error ⟨s⟩

/-- Sample movement-type parser for witnesses. -/
def parseCategoryLit (s : String) : Except DErr Category :=
  if s = "deposit" then .ok .deposit
  else if s = "withdraw" then .ok .withdrawal
  else .error ⟨s⟩

/-- Sample trade-side parser for witnesses. -/
def parseSideLit (s : String) : Except DErr TradeTy :=
  if s = "buy" then .ok .buy
  else if s = "sell" then .ok .sell
  else .error ⟨s⟩

/-- Sample deserializer bundle for witnesses. -/
def sampleDeserial : Deserial :=
  ⟨parseTsLit, parseCategoryLit, parseQLit, parseQLit, parseQLit, parseQLit, parseSideLit⟩

/-- Sample price oracle for witnesses: every asset is worth one USD. -/
def oracleOne : Asset → Option ℚ := fun _ => some 1

/-- Sample page server for witnesses: a full first page with a cursor, then a
short final page. -/
def pageServerSample : PageServer Nat :=
  ⟨fun opts => if opts.any (fun p => p.1 = "after") then ([5], none) else ([1, 2], some "c1")⟩

/-- Sample rate-limited response for witnesses. -/
def resp429 : HttpResponse Unit := ⟨429, "slow down", .invalid, none⟩

/-- Combine an already-accumulated optional balance with a list of further
contributions, the way defaultdict accumulation does. -/
def combineB : Option Balance → List Balance → Option Balance
  | some b, cs => some (cs.foldl (fun x y => x + y) b)
  | none, [] => none
  | none, c :: cs => some (cs.foldl (fun x y => x + y) ((⟨0, 0⟩ : Balance) + c))

/-- Componentwise description of Balance addition. -/
theorem Balance.add_def (a b c d : ℚ) :
    (⟨a, b⟩ : Balance) + (⟨c, d⟩ : Balance) = ⟨a + c, b + d⟩ := rfl

/-- Adding to the zero balance gives the balance itself. -/
theorem Balance.zero_add_self (b : Balance) : (⟨0, 0⟩ : Balance) + b = b := by
  cases b with
  | mk x y => rw [Balance.add_def]; norm_num

/-- The paginator loop follows the provider page chain exactly: whenever the
chain starting at the current options is pages and the fuel covers its
length, the loop yields precisely those pages in provider order. -/
theorem pagSeq_run (srv : PageServer α) (limit : Nat) :
    ∀ {opts : Options} {pages : List (List α)}, PagSeq srv limit opts pages →
      ∀ fuel, pages.length ≤ fuel →
        paginatedQuery srv limit opts fuel = pages := by
  intro opts pages h
  induction h with
  | last opts page cur hfetch hterm =>
    intro fuel hf
    cases fuel with
    | zero => simp at hf
    | succ n =>
      simp only [paginatedQuery, hfetch]
      rcases hterm with hnone | hshort
      · subst hnone; rfl
      · cases cur with
        | none => rfl
        | some c => simp [hshort]
  | step opts page c rest hfetch hlong hrec ih =>
    intro fuel hf
    cases fuel with
    | zero => simp at hf
    | succ n =>
      simp only [paginatedQuery, hfetch]
      rw [if_neg hlong]
      have hn : rest.length ≤ n := by
        simpa [Nat.succ_le_succ_iff] using hf
      rw [ih n hn]

/-- C3: for every endpoint and fixed query options, the paginator yields the
pages strictly sequentially in provider order and, after each page, stops
exactly when the returned cursor is absent or the page is shorter than the
configured limit, otherwise injecting the cursor into the after query option
of the next request; the limit option is set once up front. PagSeq encodes
exactly that provider chain, so running the loop with enough fuel returns the
chain verbatim. -/
theorem claim3_paginator_chain (srv : PageServer α) (queryOptions : Options)
    (limit fuel : Nat) (pages : List (List α))
    (h : PagSeq srv limit (setOpt queryOptions "limit" (.num limit)) pages)
    (hfuel : pages.length ≤ fuel) :
    paginated_query srv queryOptions limit fuel = pages := by
  unfold paginated_query
  exact pagSeq_run srv limit h fuel hfuel

/-- Witness for C3 on a concrete two-page provider: the first page is full
and carries a cursor, the second is short, so exactly the two pages are
yielded in order. -/
theorem claim3_paginator_chain_witness :
    paginated_query pageServerSample [("type", OptVal.str "withdraw")] 2 5 = [[1, 2], [5]] :=
  claim3_paginator_chain pageServerSample [("type", OptVal.str "withdraw")] 2 5 [[1, 2], [5]]
    (PagSeq.step _ [1, 2] "c1" [[5]] (by decide) (by decide)
      (PagSeq.last _ [5] none (by decide) (Or.inl rfl)))
    (by decide)

/-- C9: coinbasepro_to_worldpair maps BTC-USD to the pair (BTC, USD), and for
every resolver and product code it raises UnprocessableTradePair exactly when
the code does not split on the dash into exactly two parts. -/
theorem claim9_worldpair :
    coinbasepro_to_worldpair sampleResolver "BTC-USD" = .ok (btcAsset, usdAsset)
    ∧ ∀ (resolver : Resolver) (product : String),
        coinbasepro_to_worldpair resolver product = .error (.unprocessable product)
          ↔ (pySplit '-' product).length ≠ 2 := by
  constructor
  · decide
  · intro resolver product
    simp only [coinbasepro_to_worldpair]
    split
    · rename_i hlen
      simp [hlen]
    · rename_i hlen
      constructor
      · intro h
        split at h <;> simp_all
      · intro h
        exact absurd h hlen

/-- Witness for C9: the product code BTCUSD has no separator, so it raises
UnprocessableTradePair. -/
theorem claim9_worldpair_witness :
    coinbasepro_to_worldpair sampleResolver "BTCUSD" = .error (.unprocessable "BTCUSD") :=
  (claim9_worldpair.2 sampleResolver "BTCUSD").mpr (by decide)

/-- When every response is a 429, the retry loop runs its counter down to
zero, sleeping limit divided by the current retries_left on each iteration,
and ends holding the response of the last request made. -/
theorem retryLoop_all429 (limitQ : ℚ) (f : Nat → HttpResponse α)
    (h : ∀ i, (f i).status = 429) :
    ∀ (rl : Nat) (lastResp : Option (HttpResponse α)) (i : Nat),
      retryLoop limitQ (fun j => .ok (f j)) lastResp i rl =
        ((List.range rl).reverse.map (fun j => limitQ / ((j + 1 : Nat) : ℚ)),
         .ok (if rl = 0 then lastResp else some (f (i + rl - 1)))) := by
  intro rl
  induction rl with
  | zero => intro lastResp i; simp [retryLoop]
  | succ n ih =>
    intro lastResp i
    simp only [retryLoop, h i, if_true, ih (some (f i)) (i + 1), List.range_succ,
      List.reverse_append, List.reverse_cons, List.reverse_nil, List.nil_append,
      List.singleton_append, List.map_cons, Prod.mk.injEq]
    refine ⟨trivial, ?_⟩
    cases n with
    | zero => simp
    | succ m =>
      have hx : i + 1 + (m + 1) - 1 = i + (m + 1 + 1) - 1 := by omega
      simp [hx]

/-- C6: when the remote keeps answering 429, _api_query performs exactly
retryLimit backoff sleeps of retryLimit / retriesRemaining seconds each (the
retries_left counter decrementing from retryLimit down to one, so the
reversed range below lists exactly the successive retries_left values),
terminates, and then interprets the response of the final request instead of
retrying further. -/
theorem claim6_rate_limit_retries (L : Nat) (hL : 0 < L)
    (f : Nat → HttpResponse α) (h : ∀ i, (f i).status = 429) :
    apiQuery L (fun j => .ok (f j)) =
      ((List.range L).reverse.map (fun j => (L : ℚ) / ((j + 1 : Nat) : ℚ)),
       interpretResponse (f (L - 1)))
    ∧ ((List.range L).reverse.map (fun j => (L : ℚ) / ((j + 1 : Nat) : ℚ))).length = L := by
  obtain ⟨m, rfl⟩ : ∃ m, L = m + 1 := ⟨L - 1, by omega⟩
  refine ⟨?_, by simp⟩
  unfold apiQuery
  rw [retryLoop_all429 ((m + 1 : Nat) : ℚ) f h (m + 1) none 0]
  simp

/-- Witness for C6: with a retry limit of two and a remote that always
answers 429, the client sleeps 2/2 then 2/1 seconds and ends up raising the
RemoteError built from the final 429 response. -/
theorem claim6_rate_limit_retries_witness :
    apiQuery 2 (fun _ => .ok resp429) =
      ([(2 : ℚ) / ((2 : Nat) : ℚ), (2 : ℚ) / ((1 : Nat) : ℚ)],
       .raises (.remoteError (some 429) "slow down")) := by
  have h := (claim6_rate_limit_retries 2 (by decide) (fun _ => resp429)
    (fun _ => rfl)).1
  rw [h]
  rfl

/-- Counterexample for C5: a 400 response whose JSON object body lacks the
message key makes _api_query raise an uncaught KeyError, not the generic
RemoteError the claim asserts. -/
theorem claim5_counterexample :
    interpretResponse (⟨400, "x", .dict [], none⟩ : HttpResponse Unit) =
      .raises (.keyError "message")
    ∧ isRemoteError (interpretResponse (⟨400, "x", .dict [], none⟩ : HttpResponse Unit)) = false := by
  exact ⟨rfl, rfl⟩

/-- C5, amended: _api_query classifies an HTTP 403, or an HTTP 400 whose
body message is invalid signature, as CoinbaseProPermissionError; any other
non-200 status, a transport-level connection failure, or a non-JSON 200 body
as RemoteError carrying the status and response text; but an HTTP 400 whose
JSON object body lacks a message key raises an uncaught KeyError, and an
HTTP 400 whose body is not a JSON object raises an uncaught JSONDecodeError,
rather than a RemoteError. -/
theorem claim5_classification_amended (r : HttpResponse Unit) :
    (r.status = 403 →
      interpretResponse r = .raises (.permissionError "API key does not have permission"))
    ∧ (∀ es, r.status = 400 → r.body = .dict es →
        lookupStr es "message" = some "invalid signature" →
        interpretResponse r =
          .raises (.permissionError "the API secret created an invalid signature"))
    ∧ (∀ es m, r.status = 400 → r.body = .dict es →
        lookupStr es "message" = some m → m ≠ "invalid signature" →
        interpretResponse r = .raises (.remoteError (some 400) r.text))
    ∧ (∀ es, r.status = 400 → r.body = .dict es →
        lookupStr es "message" = none →
        interpretResponse r = .raises (.keyError "message"))
    ∧ (r.status = 400 → (∀ es, r.body ≠ .dict es) →
        interpretResponse r = .raises .jsonDecodeError)
    ∧ (r.status ≠ 200 → r.status ≠ 400 → r.status ≠ 403 →
        interpretResponse r = .raises (.remoteError (some r.status) r.text))
    ∧ (∀ records, r.status = 200 → r.body = .items records →
        interpretResponse r = .ok (records, r.cbAfter))
    ∧ (r.status = 200 → (∀ records, r.body ≠ .items records) →
        interpretResponse r = .raises (.remoteError (some 200) r.text))
    ∧ (∀ (L : Nat) (transport : Transport Unit) (e : String), 0 < L →
        transport 0 = .error e →
        (apiQuery L transport).2 = .raises (.remoteError none e)) := by
  obtain ⟨status, text, body, cbAfter⟩ := r
  refine ⟨?_, ?_, ?_, ?_, ?_, ?_, ?_, ?_, ?_⟩
  · intro h
    subst h
    rfl
  · intro es h hb hm
    subst h; subst hb
    simp [interpretResponse, hm]
  · intro es m h hb hm hne
    subst h; subst hb
    simp [interpretResponse, hm, hne]
  · intro es h hb hm
    subst h; subst hb
    simp [interpretResponse, hm]
  · intro h hb
    subst h
    cases body with
    | dict es => exact absurd rfl (hb es)
    | items records => rfl
    | invalid => rfl
  · intro h200 h400 h403
    simp [interpretResponse, h200, h400, h403]
  · intro records h hb
    subst h; subst hb
    rfl
  · intro h hb
    subst h
    cases body with
    | dict es => rfl
    | items records => exact absurd rfl (hb records)
    | invalid => rfl
  · intro L transport e hL he
    obtain ⟨m, rfl⟩ : ∃ m, L = m + 1 := ⟨L - 1, by omega⟩
    simp [apiQuery, retryLoop, he]

/-- Witness for C5: each branch of the amended classification at a concrete
response, plus a concrete transport failure. -/
theorem claim5_classification_amended_witness :
    interpretResponse (⟨403, "x", .invalid, none⟩ : HttpResponse Unit) =
      .raises (.permissionError "API key does not have permission")
    ∧ interpretResponse
        (⟨400, "x", .dict [("message", "invalid signature")], none⟩ : HttpResponse Unit) =
      .raises (.permissionError "the API secret created an invalid signature")
    ∧ interpretResponse
        (⟨400, "x", .dict [("message", "oops")], none⟩ : HttpResponse Unit) =
      .raises (.remoteError (some 400) "x")
    ∧ interpretResponse (⟨400, "x", .dict [("other", "y")], none⟩ : HttpResponse Unit) =
      .raises (.keyError "message")
    ∧ interpretResponse (⟨400, "x", .invalid, none⟩ : HttpResponse Unit) =
      .raises .jsonDecodeError
    ∧ interpretResponse (⟨500, "boom", .invalid, none⟩ : HttpResponse Unit) =
      .raises (.remoteError (some 500) "boom")
    ∧ interpretResponse (⟨200, "x", .items [(), ()], none⟩ : HttpResponse Unit) =
      .ok ([(), ()], none)
    ∧ interpretResponse (⟨200, "x", .dict [], none⟩ : HttpResponse Unit) =
      .raises (.remoteError (some 200) "x")
    ∧ (apiQuery 3 (fun _ => (.error "conn refused" : Except String (HttpResponse Unit)))).2 =
      .raises (.remoteError none "conn refused") := by
  refine ⟨?_, ?_, ?_, ?_, ?_, ?_, ?_, ?_, ?_⟩
  · exact (claim5_classification_amended _).1 rfl
  · exact (claim5_classification_amended _).2.1 _ rfl rfl rfl
  · exact (claim5_classification_amended _).2.2.1 _ "oops" rfl rfl rfl (by decide)
  · exact (claim5_classification_amended _).2.2.2.1 _ rfl rfl rfl
  · exact (claim5_classification_amended _).2.2.2.2.1 rfl (by intro es h; cases h)
  · exact (claim5_classification_amended _).2.2.2.2.2.1 (by decide) (by decide) (by decide)
  · exact (claim5_classification_amended _).2.2.2.2.2.2.1 _ rfl rfl
  · exact (claim5_classification_amended _).2.2.2.2.2.2.2.1 rfl (by intro records h; cases h)
  · exact (claim5_classification_amended
      (⟨200, "x", .invalid, none⟩ : HttpResponse Unit)).2.2.2.2.2.2.2.2 3 _ _
      (by decide) rfl

/-- C10: query_balances never lets a RemoteError or CoinbaseProPermissionError
reach its caller: those two failures of the accounts fetch are converted into
the pair (None, error message), and a successful fetch yields the accumulated
balances with an empty error string. -/
theorem claim10_query_balances_no_raise (d : Deserial) (resolver : Resolver)
    (oracle : Asset → Option ℚ)
    (fetch : PyOutcome (List RawAccount × Option String)) :
    (∀ sc txt, (query_balances d resolver oracle fetch).1 ≠ .raises (.remoteError sc txt))
    ∧ (∀ detail, (query_balances d resolver oracle fetch).1 ≠ .raises (.permissionError detail))
    ∧ (∀ detail, fetch = .raises (.permissionError detail) →
        (query_balances d resolver oracle fetch).1 =
          .ok (none, "Coinbase Pro API request failed. " ++ detail))
    ∧ (∀ sc txt, fetch = .raises (.remoteError sc txt) →
        (query_balances d resolver oracle fetch).1 =
          .ok (none, "Coinbase Pro API request failed. " ++ txt))
    ∧ (∀ accounts cur, fetch = .ok (accounts, cur) →
        (query_balances d resolver oracle fetch).1 =
          .ok (some (queryBalancesLoop d resolver oracle accounts).1, "")) := by
  refine ⟨?_, ?_, ?_, ?_, ?_⟩
  · intro sc txt
    match fetch with
    | .ok (accounts, cur) => simp [query_balances]
    | .raises (.permissionError detail) => simp [query_balances]
    | .raises (.remoteError s t) => simp [query_balances]
    | .raises (.keyError k) => simp [query_balances]
    | .raises .jsonDecodeError => simp [query_balances]
    | .raises .nameError => simp [query_balances]
  · intro detail
    match fetch with
    | .ok (accounts, cur) => simp [query_balances]
    | .raises (.permissionError dd) => simp [query_balances]
    | .raises (.remoteError s t) => simp [query_balances]
    | .raises (.keyError k) => simp [query_balances]
    | .raises .jsonDecodeError => simp [query_balances]
    | .raises .nameError => simp [query_balances]
  · intro detail h
    subst h
    rfl
  · intro sc txt h
    subst h
    rfl
  · intro accounts cur h
    subst h
    rfl

/-- Witness for C10: a concrete RemoteError fetch failure yields the
(None, message) pair, and a concrete successful fetch of no accounts yields
an empty balances map with an empty error string. -/
theorem claim10_query_balances_no_raise_witness :
    (query_balances sampleDeserial sampleResolver oracleOne
        (.raises (.remoteError (some 500) "boom"))).1 =
      .ok (none, "Coinbase Pro API request failed. " ++ "boom")
    ∧ (query_balances sampleDeserial sampleResolver oracleOne (.ok ([], none))).1 =
      .ok (some [], "")
    ∧ (query_balances sampleDeserial sampleResolver oracleOne
        (.raises (.remoteError (some 500) "boom"))).1 ≠
      .raises (.remoteError (some 500) "boom") := by
  refine ⟨?_, ?_, ?_⟩
  · exact (claim10_query_balances_no_raise sampleDeserial sampleResolver oracleOne
      (.raises (.remoteError (some 500) "boom"))).2.2.2.1 (some 500) "boom" rfl
  · have h := (claim10_query_balances_no_raise sampleDeserial sampleResolver oracleOne
      (.ok ([], none))).2.2.2.2 [] none rfl
    simpa [queryBalancesLoop] using h
  · exact (claim10_query_balances_no_raise sampleDeserial sampleResolver oracleOne
      (.raises (.remoteError (some 500) "boom"))).1 (some 500) "boom"

/-- An emitted movement carries the timestamp the rest-step was entered
with. -/
theorem processTransferRest_emitted_ts (d : Deserial) (amap : AccountMap)
    (ts : Nat) (entry : TransferEntry) (m : AssetMovement)
    (h : processTransferRest d amap ts entry = .emitted m) :
    m.timestamp = ts := by
  unfold processTransferRest at h
  repeat' split at h
  all_goals cases h
  all_goals rfl

/-- An emitted movement of the full step lies inside the inclusive window. -/
theorem processTransfer_emitted_window (d : Deserial) (amap : AccountMap)
    (startTs endTs : Nat) (entry : TransferEntry) (m : AssetMovement)
    (h : processTransfer d amap startTs endTs entry = .emitted m) :
    startTs ≤ m.timestamp ∧ m.timestamp ≤ endTs := by
  unfold processTransfer at h
  repeat' split at h
  any_goals cases h
  rename_i hwin
  have := processTransferRest_emitted_ts _ _ _ _ _ h
  omega

/-- An emitted trade carries the timestamp the rest-step was entered with. -/
theorem processFillRest_emitted_ts (d : Deserial) (base quote : Asset)
    (ts : Nat) (f : FillEntry) (t : Trade)
    (h : processFillRest d base quote ts f = .emitted t) :
    t.timestamp = ts := by
  unfold processFillRest at h
  repeat' split at h
  all_goals cases h
  all_goals rfl

/-- An emitted trade of the full fill step lies inside the inclusive
window. -/
theorem processFill_emitted_window (d : Deserial) (base quote : Asset)
    (startTs endTs : Nat) (f : FillEntry) (t : Trade)
    (h : processFill d base quote startTs endTs f = .emitted t) :
    startTs ≤ t.timestamp ∧ t.timestamp ≤ endTs := by
  unfold processFill at h
  repeat' split at h
  any_goals cases h
  rename_i hwin
  have := processFillRest_emitted_ts _ _ _ _ _ _ h
  omega

/-- The movement loop distributes over list concatenation. -/
theorem processTransfers_append (d : Deserial) (amap : AccountMap)
    (startTs endTs : Nat) (xs ys : List TransferEntry) :
    processTransfers d amap startTs endTs (xs ++ ys) =
      ((processTransfers d amap startTs endTs xs).1 ++
        (processTransfers d amap startTs endTs ys).1,
       (processTransfers d amap startTs endTs xs).2 ++
        (processTransfers d amap startTs endTs ys).2) := by
  induction xs with
  | nil => simp [processTransfers]
  | cons x xs ih =>
    simp only [List.cons_append, processTransfers, ih]
    rcases hx : processTransfer d amap startTs endTs x with m | sk | err <;> simp [ih]

/-- Membership in the movement-loop output comes exactly from entries whose
processing emits the movement. -/
theorem mem_processTransfers (d : Deserial) (amap : AccountMap)
    (startTs endTs : Nat) (es : List TransferEntry) (m : AssetMovement) :
    m ∈ (processTransfers d amap startTs endTs es).1 ↔
      ∃ x ∈ es, processTransfer d amap startTs endTs x = .emitted m := by
  induction es with
  | nil => simp [processTransfers]
  | cons x xs ih =>
    simp only [processTransfers]
    rcases hx : processTransfer d amap startTs endTs x with m' | sk | err
    · simp only [hx, List.mem_cons, ih]
      constructor
      · rintro (rfl | ⟨y, hy, hP⟩)
        · exact ⟨x, Or.inl rfl, hx⟩
        · exact ⟨y, Or.inr hy, hP⟩
      · rintro ⟨y, rfl | hy, hP⟩
        · rw [hx] at hP
          exact Or.inl (ProcResult.emitted.inj hP).symm
        · exact Or.inr ⟨y, hy, hP⟩
    · simp only [hx, List.mem_cons, ih]
      constructor
      · rintro ⟨y, hy, hP⟩
        exact ⟨y, Or.inr hy, hP⟩
      · rintro ⟨y, rfl | hy, hP⟩
        · rw [hx] at hP
          cases hP
        · exact ⟨y, hy, hP⟩
    · simp only [hx, List.mem_cons, ih]
      constructor
      · rintro ⟨y, hy, hP⟩
        exact ⟨y, Or.inr hy, hP⟩
      · rintro ⟨y, rfl | hy, hP⟩
        · rw [hx] at hP
          cases hP
        · exact ⟨y, hy, hP⟩

/-- The fill loop distributes over list concatenation. -/
theorem processFills_append (d : Deserial) (base quote : Asset)
    (startTs endTs : Nat) (xs ys : List FillEntry) :
    processFills d base quote startTs endTs (xs ++ ys) =
      ((processFills d base quote startTs endTs xs).1 ++
        (processFills d base quote startTs endTs ys).1,
       (processFills d base quote startTs endTs xs).2 ++
        (processFills d base quote startTs endTs ys).2) := by
  induction xs with
  | nil => simp [processFills]
  | cons x xs ih =>
    simp only [List.cons_append, processFills, ih]
    rcases hx : processFill d base quote startTs endTs x with t | sk | err <;> simp [ih]

/-- Membership in the fill-loop output comes exactly from fills whose
processing emits the trade. -/
theorem mem_processFills (d : Deserial) (base quote : Asset)
    (startTs endTs : Nat) (fs : List FillEntry) (t : Trade) :
    t ∈ (processFills d base quote startTs endTs fs).1 ↔
      ∃ f ∈ fs, processFill d base quote startTs endTs f = .emitted t := by
  induction fs with
  | nil => simp [processFills]
  | cons f fs ih =>
    simp only [processFills]
    rcases hf : processFill d base quote startTs endTs f with t' | sk | err
    · simp only [hf, List.mem_cons, ih]
      constructor
      · rintro (rfl | ⟨y, hy, hP⟩)
        · exact ⟨f, Or.inl rfl, hf⟩
        · exact ⟨y, Or.inr hy, hP⟩
      · rintro ⟨y, rfl | hy, hP⟩
        · rw [hf] at hP
          exact Or.inl (ProcResult.emitted.inj hP).symm
        · exact Or.inr ⟨y, hy, hP⟩
    · simp only [hf, List.mem_cons, ih]
      constructor
      · rintro ⟨y, hy, hP⟩
        exact ⟨y, Or.inr hy, hP⟩
      · rintro ⟨y, rfl | hy, hP⟩
        · rw [hf] at hP
          cases hP
        · exact ⟨y, hy, hP⟩
    · simp only [hf, List.mem_cons, ih]
      constructor
      · rintro ⟨y, hy, hP⟩
        exact ⟨y, Or.inr hy, hP⟩
      · rintro ⟨y, rfl | hy, hP⟩
        · rw [hf] at hP
          cases hP
        · exact ⟨y, hy, hP⟩

/-- Every trade in a successful run of the order loop was emitted by the
fill step for some product pair. -/
theorem tradeLoop_ok_mem (d : Deserial) (resolver : Resolver)
    (available : List String) (fillsFor : String → List FillEntry)
    (startTs endTs : Nat) :
    ∀ (orders : List OrderEntry) (queried : List String) (ts : List Trade)
      (msgs : List Msg),
      tradeLoop d resolver available fillsFor startTs endTs queried orders = .ok (ts, msgs) →
      ∀ t ∈ ts, ∃ base quote f,
        processFill d base quote startTs endTs f = .emitted t := by
  intro orders
  induction orders with
  | nil =>
    intro queried ts msgs h t ht
    simp only [tradeLoop] at h
    cases h
    simp at ht
  | cons o os ih =>
    intro queried ts msgs h t ht
    cases hpid : o.product_id with
    | none =>
      cases hrec : tradeLoop d resolver available fillsFor startTs endTs queried os with
      | error aid => simp [tradeLoop, hpid, hrec] at h
      | ok pair =>
        obtain ⟨ts', msgs'⟩ := pair
        simp only [tradeLoop, hpid, hrec] at h
        obtain ⟨h1, h2⟩ := Prod.mk.injEq .. ▸ Except.ok.inj h
        subst h1
        exact ih queried ts' msgs' hrec t ht
    | some pid =>
      by_cases hq : pid ∈ queried ∨ pid ∉ available
      · simp only [tradeLoop, hpid, if_pos hq] at h
        exact ih queried ts msgs h t ht
      · cases hpair : coinbasepro_to_worldpair resolver pid with
        | error perr =>
          cases perr with
          | unprocessable p =>
            cases hrec : tradeLoop d resolver available fillsFor startTs endTs (pid :: queried) os with
            | error aid => simp [tradeLoop, hpid, if_neg hq, hpair, hrec] at h
            | ok pair =>
              obtain ⟨ts', msgs'⟩ := pair
              simp only [tradeLoop, hpid, if_neg hq, hpair, hrec] at h
              obtain ⟨h1, h2⟩ := Prod.mk.injEq .. ▸ Except.ok.inj h
              subst h1
              exact ih (pid :: queried) ts' msgs' hrec t ht
          | assetFailure ae =>
            cases ae with
            | unknown aid =>
              cases hrec : tradeLoop d resolver available fillsFor startTs endTs (pid :: queried) os with
              | error aid' => simp [tradeLoop, hpid, if_neg hq, hpair, hrec] at h
              | ok pair =>
                obtain ⟨ts', msgs'⟩ := pair
                simp only [tradeLoop, hpid, if_neg hq, hpair, hrec] at h
                obtain ⟨h1, h2⟩ := Prod.mk.injEq .. ▸ Except.ok.inj h
                subst h1
                exact ih (pid :: queried) ts' msgs' hrec t ht
            | unsupported aid =>
              simp [tradeLoop, hpid, if_neg hq, hpair] at h
        | ok pair =>
          obtain ⟨base, quote⟩ := pair
          cases hrec : tradeLoop d resolver available fillsFor startTs endTs (pid :: queried) os with
          | error aid => simp [tradeLoop, hpid, if_neg hq, hpair, hrec] at h
          | ok pair' =>
            obtain ⟨ts', msgs'⟩ := pair'
            simp only [tradeLoop, hpid, if_neg hq, hpair, hrec] at h
            obtain ⟨h1, h2⟩ := Prod.mk.injEq .. ▸ Except.ok.inj h
            rw [← h1] at ht
            rcases List.mem_append.1 ht with hin | hin
            · rcases (mem_processFills d base quote startTs endTs (fillsFor pid) t).1 hin
                with ⟨f, _, hf⟩
              exact ⟨base, quote, f, hf⟩
            · exact ih (pid :: queried) ts' msgs' hrec t hin

/-- An emitted movement of the full step comes from the rest-step at the
deserialized timestamp. -/
theorem processTransfer_emitted_rest (d : Deserial) (amap : AccountMap)
    (startTs endTs : Nat) (entry : TransferEntry) (m : AssetMovement)
    (h : processTransfer d amap startTs endTs entry = .emitted m) :
    ∃ ts, processTransferRest d amap ts entry = .emitted m := by
  unfold processTransfer at h
  split at h
  · cases h
  · split at h
    · cases h
    · split at h
      · cases h
      · exact ⟨_, h⟩

/-- The transaction id of an emitted movement is the raw details id,
prefixed with 0x exactly when the raw id is truthy and the asset is the
chain native asset or an EVM token. -/
theorem processTransferRest_txid (d : Deserial) (amap : AccountMap) (ts : Nat)
    (entry : TransferEntry) (m : AssetMovement) (addr rawTx : Option String)
    (feeA : ℚ)
    (hm : processTransferRest d amap ts entry = .emitted m)
    (hd : extractDetails d m.category entry.details = .ok (addr, rawTx, feeA)) :
    (∀ s, rawTx = some s → s ≠ "" →
      (m.asset = A_ETH ∨ m.asset.assetType = .evmToken) →
      m.transaction_id = some ("0x" ++ s))
    ∧ (¬(m.asset = A_ETH ∨ m.asset.assetType = .evmToken) →
      m.transaction_id = rawTx) := by
  unfold processTransferRest at hm
  cases hty : entry.type with
  | none => simp [hty] at hm
  | some tyRaw =>
  simp only [hty] at hm
  cases hcat : d.movementCategory tyRaw with
  | error err => simp [hcat] at hm
  | ok category =>
  simp only [hcat] at hm
  cases hacc : entry.account_id with
  | none => simp [hacc] at hm
  | some accId =>
  simp only [hacc] at hm
  cases hasset : lookupAccount amap accId with
  | none => simp [hasset] at hm
  | some asset =>
  simp only [hasset] at hm
  cases hdet : extractDetails d category entry.details with
  | error err => simp [hdet] at hm
  | ok triple =>
  obtain ⟨address, txid, feeAmt⟩ := triple
  simp only [hdet] at hm
  cases hamt : entry.amount with
  | none => simp [hamt] at hm
  | some rawAmount =>
  simp only [hamt] at hm
  cases hamt2 : d.assetAmountForcePositive rawAmount with
  | error err => simp [hamt2] at hm
  | ok amount =>
  simp only [hamt2] at hm
  cases hid : entry.id with
  | none => simp [hid] at hm
  | some linkId =>
  simp only [hid] at hm
  cases hm
  have hcomb : Except.ok (address, txid, feeAmt) =
      (Except.ok (addr, rawTx, feeA) : Except RecErr (Option String × Option String × ℚ)) := by
    rw [← hdet]
    exact hd
  injection hcomb with h3
  injection h3 with h4 h5
  injection h5 with h6 h7
  subst h4
  subst h6
  subst h7
  constructor
  · intro s hs hne hch
    subst hs
    have hc : txidTruthy (some s) = true ∧
        (asset = A_ETH ∨ asset.assetType = AssetType.evmToken) :=
      ⟨by simp [txidTruthy, hne], hch⟩
    show (if txidTruthy (some s) = true ∧
          (asset = A_ETH ∨ asset.assetType = AssetType.evmToken)
        then Option.map (fun t => "0x" ++ t) (some s) else some s) = some ("0x" ++ s)
    rw [if_pos hc]
    rfl
  · intro hnot
    show (if txidTruthy txid = true ∧
          (asset = A_ETH ∨ asset.assetType = AssetType.evmToken)
        then Option.map (fun t => "0x" ++ t) txid else txid) = txid
    rw [if_neg (fun hc => hnot hc.2)]

/-- C7: in query_online_deposits_withdrawals, an emitted movement whose raw
details transaction id is present (truthy) and whose asset is the chain
native asset ETH or an EVM token carries that id prefixed with 0x, while a
movement whose asset is not a chain asset carries the raw id unmodified. -/
theorem claim7_txid_chain_marker (d : Deserial) (amap : AccountMap)
    (startTs endTs : Nat) (entry : TransferEntry) (m : AssetMovement)
    (addr rawTx : Option String) (feeA : ℚ)
    (hm : processTransfer d amap startTs endTs entry = .emitted m)
    (hd : extractDetails d m.category entry.details = .ok (addr, rawTx, feeA)) :
    (∀ s, rawTx = some s → s ≠ "" →
      (m.asset = A_ETH ∨ m.asset.assetType = .evmToken) →
      m.transaction_id = some ("0x" ++ s))
    ∧ (¬(m.asset = A_ETH ∨ m.asset.assetType = .evmToken) →
      m.transaction_id = rawTx) := by
  rcases processTransfer_emitted_rest d amap startTs endTs entry m hm with ⟨ts, hrest⟩
  exact processTransferRest_txid d amap ts entry m addr rawTx feeA hrest hd

/-- Witness for C7: a withdrawal of ETH with raw transaction id abc is
emitted with id 0xabc, and the same withdrawal of BTC keeps the raw id. -/
theorem claim7_txid_chain_marker_witness :
    (⟨Category.withdrawal, some "dest", some ("0x" ++ "abc"), 6, A_ETH,
      ((2 : Nat) : ℚ), A_ETH, 0, "id2"⟩ : AssetMovement).transaction_id =
        some ("0x" ++ "abc")
    ∧ (⟨Category.withdrawal, some "dest", some "abc", 6, btcAsset,
        ((2 : Nat) : ℚ), btcAsset, 0, "id2"⟩ : AssetMovement).transaction_id =
        some "abc" := by
  constructor
  · exact (claim7_txid_chain_marker sampleDeserial [("a1", A_ETH)] 5 10
      ⟨some "6", some "withdraw", some "a1",
        some ⟨none, some "dest", some "abc", none⟩, some "2", some "id2"⟩
      _ (some "dest") (some "abc") 0 rfl rfl).1 "abc" rfl (by decide) (Or.inl rfl)
  · exact (claim7_txid_chain_marker sampleDeserial [("a2", btcAsset)] 5 10
      ⟨some "6", some "withdraw", some "a2",
        some ⟨none, some "dest", some "abc", none⟩, some "2", some "id2"⟩
      _ (some "dest") (some "abc") 0 rfl rfl).2 (by decide)

/-- C2: every movement and every trade returned by the two high-level
queries has its timestamp inside the caller-supplied inclusive window, and
conversely every raw record whose processing emits a record (which requires
the timestamp to pass the inclusive window check, in particular timestamps
equal to either boundary) appears in the output. -/
theorem claim2_inclusive_window (d : Deserial) (amap : AccountMap)
    (resolver : Resolver) (available : List String)
    (fillsFor : String → List FillEntry) (startTs endTs : Nat)
    (rawWithdrawals rawDeposits : List TransferEntry)
    (orders : List OrderEntry) :
    (∀ m ∈ (query_online_deposits_withdrawals d amap startTs endTs
        rawWithdrawals rawDeposits).1,
      startTs ≤ m.timestamp ∧ m.timestamp ≤ endTs)
    ∧ (∀ res, query_online_trade_history d resolver available fillsFor
        startTs endTs orders = .ok res →
        ∀ t ∈ res.1, startTs ≤ t.timestamp ∧ t.timestamp ≤ endTs)
    ∧ (∀ e ∈ rawWithdrawals ++ rawDeposits, ∀ m,
        processTransfer d amap startTs endTs e = .emitted m →
        m ∈ (query_online_deposits_withdrawals d amap startTs endTs
          rawWithdrawals rawDeposits).1)
    ∧ (∀ (base quote : Asset) (fs : List FillEntry), ∀ f ∈ fs, ∀ t,
        processFill d base quote startTs endTs f = .emitted t →
        t ∈ (processFills d base quote startTs endTs fs).1) := by
  refine ⟨?_, ?_, ?_, ?_⟩
  · intro m hm
    rcases (mem_processTransfers d amap startTs endTs
      (rawWithdrawals ++ rawDeposits) m).1 hm with ⟨e, _, he⟩
    exact processTransfer_emitted_window d amap startTs endTs e m he
  · intro res hres t ht
    unfold query_online_trade_history at hres
    cases hrec : tradeLoop d resolver available fillsFor startTs endTs [] orders with
    | error aid => rw [hrec] at hres; cases hres
    | ok pair =>
      obtain ⟨ts', msgs'⟩ := pair
      rw [hrec] at hres
      cases hres
      rcases tradeLoop_ok_mem d resolver available fillsFor startTs endTs
        orders [] ts' msgs' hrec t ht with ⟨base, quote, f, hf⟩
      exact processFill_emitted_window d base quote startTs endTs f t hf
  · intro e he m hm
    exact (mem_processTransfers d amap startTs endTs
      (rawWithdrawals ++ rawDeposits) m).2 ⟨e, he, hm⟩
  · intro base quote fs f hf t ht
    exact (mem_processFills d base quote startTs endTs fs t).2 ⟨f, hf, ht⟩

/-- Witness for C2: with window 5 to 10, a withdrawal completed exactly at
the lower boundary 5 is emitted and appears in the output, inside the
window. -/
theorem claim2_inclusive_window_witness :
    (⟨Category.withdrawal, none, none, 5, btcAsset, ((2 : Nat) : ℚ), btcAsset,
        0, "id1"⟩ : AssetMovement) ∈
      (query_online_deposits_withdrawals sampleDeserial [("a1", btcAsset)] 5 10
        [⟨some "5", some "withdraw", some "a1", none, some "2", some "id1"⟩] []).1
    ∧ 5 ≤ (5 : Nat) ∧ (5 : Nat) ≤ 10 := by
  have h := (claim2_inclusive_window sampleDeserial [("a1", btcAsset)]
    sampleResolver [] (fun _ => []) 5 10
    [⟨some "5", some "withdraw", some "a1", none, some "2", some "id1"⟩] [] []).2.2.1
    ⟨some "5", some "withdraw", some "a1", none, some "2", some "id1"⟩
    (by simp)
    ⟨Category.withdrawal, none, none, 5, btcAsset, ((2 : Nat) : ℚ), btcAsset, 0, "id1"⟩
    rfl
  exact ⟨h, by omega, by omega⟩

/-- Adding into the balances dict and then looking up the same asset gives
the previous value (or the zero balance) plus the contribution. -/
theorem lookupBalance_addBalance_self (m : BalanceMap) (a : Asset) (b : Balance) :
    lookupBalance (addBalance m a b) a =
      some (match lookupBalance m a with
            | some x => x + b
            | none => (⟨0, 0⟩ : Balance) + b) := by
  induction m with
  | nil => simp [addBalance, lookupBalance]
  | cons p rest ih =>
    by_cases hp : p.1 = a
    · simp [addBalance, lookupBalance, hp]
    · simp [addBalance, lookupBalance, hp, ih]

/-- Adding into the balances dict does not change the value of any other
asset. -/
theorem lookupBalance_addBalance_other (m : BalanceMap) (a a' : Asset)
    (b : Balance) (h : a ≠ a') :
    lookupBalance (addBalance m a b) a' = lookupBalance m a' := by
  induction m with
  | nil => simp [addBalance, lookupBalance, h]
  | cons p rest ih =>
    by_cases hp : p.1 = a
    · simp [addBalance, lookupBalance, hp, h]
    · simp [addBalance, lookupBalance, hp, ih]

/-- Looking up one asset after folding the account loop combines the value
accumulated so far with the contributions of the processed accounts. -/
theorem lookup_balanceFold (d : Deserial) (resolver : Resolver)
    (oracle : Asset → Option ℚ) :
    ∀ (accounts : List RawAccount) (st : BalanceMap × List Msg) (a : Asset),
      lookupBalance (accounts.foldl (balanceFoldStep d resolver oracle) st).1 a =
        combineB (lookupBalance st.1 a) (contribs d resolver oracle accounts a) := by
  intro accounts
  induction accounts with
  | nil =>
    intro st a
    cases h : lookupBalance st.1 a <;> simp [contribs, combineB, h]
  | cons acc accounts ih =>
    intro st a
    simp only [List.foldl_cons]
    rw [ih]
    cases hstep : balanceStep d resolver oracle acc with
    | skip => simp [balanceFoldStep, hstep, contribs, List.filterMap_cons]
    | warn m => simp [balanceFoldStep, hstep, contribs, List.filterMap_cons]
    | contribute a' b =>
      by_cases ha : a' = a
      · subst ha
        simp only [balanceFoldStep, hstep, contribs, List.filterMap_cons, if_pos rfl]
        rw [lookupBalance_addBalance_self]
        cases hl : lookupBalance st.1 a' <;> simp [combineB]
      · simp only [balanceFoldStep, hstep, contribs, List.filterMap_cons, if_neg ha]
        rw [lookupBalance_addBalance_other _ _ _ _ ha]

/-- C4: in the query_balances account loop, an account whose balance amount
deserializes to exactly zero contributes nothing at all (the run over the
list with it removed is identical, messages included), and for every asset
the accumulated dict holds exactly the fold of the balance contributions of
all accounts resolving to that asset, so same-asset accounts sum into a
single entry. -/
theorem claim4_balance_accumulation :
    (∀ (d : Deserial) (resolver : Resolver) (oracle : Asset → Option ℚ)
       (xs ys : List RawAccount) (acc : RawAccount) (raw : String),
       acc.balance = some raw → d.assetAmount raw = .ok 0 →
       queryBalancesLoop d resolver oracle (xs ++ acc :: ys) =
         queryBalancesLoop d resolver oracle (xs ++ ys))
    ∧ (∀ (d : Deserial) (resolver : Resolver) (oracle : Asset → Option ℚ)
        (accounts : List RawAccount) (a : Asset),
        lookupBalance (queryBalancesLoop d resolver oracle accounts).1 a =
          match contribs d resolver oracle accounts a with
          | [] => none
          | c :: cs => some (cs.foldl (fun x y => x + y) c)) := by
  constructor
  · intro d resolver oracle xs ys acc raw hb h0
    unfold queryBalancesLoop
    rw [List.foldl_append, List.foldl_append, List.foldl_cons]
    congr 1
    simp [balanceFoldStep, balanceStep, hb, h0]
  · intro d resolver oracle accounts a
    have h := lookup_balanceFold d resolver oracle accounts ([], []) a
    refine Eq.trans h ?_
    cases hc : contribs d resolver oracle accounts a with
    | nil => simp [combineB, lookupBalance]
    | cons c cs => simp [combineB, lookupBalance, Balance.zero_add_self]

/-- Witness for C4: a zero-balance BTC account contributes nothing, and two
BTC accounts of one and two units sum to a single BTC entry of three units
(each priced at one USD by the sample oracle). -/
theorem claim4_balance_accumulation_witness :
    queryBalancesLoop sampleDeserial sampleResolver oracleOne
        [⟨some "0", some "BTC"⟩] =
      queryBalancesLoop sampleDeserial sampleResolver oracleOne []
    ∧ lookupBalance (queryBalancesLoop sampleDeserial sampleResolver oracleOne
        [⟨some "1", some "BTC"⟩, ⟨some "2", some "BTC"⟩]).1 btcAsset =
      some ⟨3, 3⟩ := by
  constructor
  · exact claim4_balance_accumulation.1 sampleDeserial sampleResolver oracleOne
      [] [] ⟨some "0", some "BTC"⟩ "0" rfl rfl
  · have h := claim4_balance_accumulation.2 sampleDeserial sampleResolver oracleOne
      [⟨some "1", some "BTC"⟩, ⟨some "2", some "BTC"⟩] btcAsset
    have hc : contribs sampleDeserial sampleResolver oracleOne
        [⟨some "1", some "BTC"⟩, ⟨some "2", some "BTC"⟩] btcAsset =
        [⟨(1 : ℚ), (1 : ℚ) * 1⟩, ⟨(2 : ℚ), (2 : ℚ) * 1⟩] := rfl
    rw [hc] at h
    rw [h]
    simp only [List.foldl_cons, List.foldl_nil, Balance.add_def]
    norm_num

/-- The message component of the map-building fold collects exactly the
per-account warnings, in order. -/
theorem accountFold_snd (resolver : Resolver) :
    ∀ (accounts : List CacheAccountEntry) (st : AccountMap × List Msg),
      (accounts.foldl (accountFoldStep resolver) st).2 =
        st.2 ++ accounts.filterMap (accountErrMsg resolver) := by
  intro accounts
  induction accounts with
  | nil => intro st; simp
  | cons a as ih =>
    intro st
    simp only [List.foldl_cons, ih, List.filterMap_cons]
    cases hs : accountStep resolver a with
    | error m => simp [accountFoldStep, accountErrMsg, hs]
    | ok pair => simp [accountFoldStep, accountErrMsg, hs]

/-- The map component of the map-building fold does not depend on the
messages accumulated so far. -/
theorem accountFold_fst_irrel (resolver : Resolver) :
    ∀ (accounts : List CacheAccountEntry) (m1 : AccountMap)
      (msgs1 msgs2 : List Msg),
      (accounts.foldl (accountFoldStep resolver) (m1, msgs1)).1 =
        (accounts.foldl (accountFoldStep resolver) (m1, msgs2)).1 := by
  intro accounts
  induction accounts with
  | nil => intro m1 msgs1 msgs2; rfl
  | cons a as ih =>
    intro m1 msgs1 msgs2
    simp only [List.foldl_cons]
    cases hs : accountStep resolver a with
    | error m => simp only [accountFoldStep, hs]; exact ih m1 (msgs1 ++ [m]) (msgs2 ++ [m])
    | ok pair => simp only [accountFoldStep, hs]; exact ih _ msgs1 msgs2

/-- C8: the account-to-currency map is computed at most once per client
lifetime: with a populated cache the call returns the cached map unchanged
without querying the remote (whatever the remote accounts now are); the
first call on an empty cache queries the remote, builds and stores the map,
and any subsequent call returns exactly that stored map without querying;
and while the map is built an account with an unknown or unsupported
currency (or missing field) is dropped with exactly one warning without
affecting the map entries of the other accounts. -/
theorem claim8_account_map_cache :
    (∀ (resolver : Resolver) (st : ClientState) (m : AccountMap)
       (accounts : List CacheAccountEntry),
       st.account_to_currency = some m →
       create_or_return_account_to_currency_map resolver st accounts = (m, st, false, []))
    ∧ (∀ (resolver : Resolver) (accounts accounts2 : List CacheAccountEntry),
        (create_or_return_account_to_currency_map resolver ⟨none⟩ accounts).1 =
          (buildAccountMap resolver accounts).1
        ∧ (create_or_return_account_to_currency_map resolver ⟨none⟩ accounts).2.2.1 = true
        ∧ create_or_return_account_to_currency_map resolver
            (create_or_return_account_to_currency_map resolver ⟨none⟩ accounts).2.1
            accounts2 =
          ((buildAccountMap resolver accounts).1,
           (create_or_return_account_to_currency_map resolver ⟨none⟩ accounts).2.1,
           false, []))
    ∧ (∀ (resolver : Resolver) (xs ys : List CacheAccountEntry)
        (bad : CacheAccountEntry) (msg : Msg),
        accountStep resolver bad = .error msg →
        (buildAccountMap resolver (xs ++ bad :: ys)).1 =
          (buildAccountMap resolver (xs ++ ys)).1
        ∧ (buildAccountMap resolver (xs ++ bad :: ys)).2 =
          (buildAccountMap resolver xs).2 ++
            msg :: (buildAccountMap resolver ys).2) := by
  refine ⟨?_, ?_, ?_⟩
  · intro resolver st m accounts h
    simp [create_or_return_account_to_currency_map, h]
  · intro resolver accounts accounts2
    exact ⟨rfl, rfl, rfl⟩
  · intro resolver xs ys bad msg h
    constructor
    · unfold buildAccountMap
      rw [List.foldl_append, List.foldl_append, List.foldl_cons]
      rcases hst : List.foldl (accountFoldStep resolver) ([], []) xs with ⟨m1, msgs1⟩
      simp only [accountFoldStep, h]
      exact accountFold_fst_irrel resolver ys m1 (msgs1 ++ [msg]) msgs1
    · simp [buildAccountMap, accountFold_snd, accountFoldStep,
        List.filterMap_append, List.filterMap_cons, accountErrMsg, h]

/-- Witness for C8: a populated cache is returned unchanged without a remote
query even though the remote accounts differ, and during the build an
unknown-currency account is dropped with one warning while the resolved
account keeps its map entry. -/
theorem claim8_account_map_cache_witness :
    create_or_return_account_to_currency_map sampleResolver
        ⟨some [("a1", btcAsset)]⟩ [⟨some "zz", some "ETH"⟩] =
      ([("a1", btcAsset)], ⟨some [("a1", btcAsset)]⟩, false, [])
    ∧ (buildAccountMap sampleResolver
        [⟨some "a1", some "BTC"⟩, ⟨some "a2", some "QQQ"⟩]).1 =
      (buildAccountMap sampleResolver [⟨some "a1", some "BTC"⟩]).1
    ∧ (buildAccountMap sampleResolver
        [⟨some "a1", some "BTC"⟩, ⟨some "a2", some "QQQ"⟩]).2 =
      (buildAccountMap sampleResolver [⟨some "a1", some "BTC"⟩]).2 ++
        Msg.aggWarning ("Found coinbase pro account result with unknown asset " ++
          "QQQ" ++ ". Ignoring it.") ::
        (buildAccountMap sampleResolver []).2 := by
  refine ⟨?_, ?_, ?_⟩
  · exact claim8_account_map_cache.1 sampleResolver ⟨some [("a1", btcAsset)]⟩
      [("a1", btcAsset)] [⟨some "zz", some "ETH"⟩] rfl
  · exact (claim8_account_map_cache.2.2 sampleResolver [⟨some "a1", some "BTC"⟩] []
      ⟨some "a2", some "QQQ"⟩
      (.aggWarning ("Found coinbase pro account result with unknown asset " ++
        "QQQ" ++ ". Ignoring it.")) rfl).1
  · exact (claim8_account_map_cache.2.2 sampleResolver [⟨some "a1", some "BTC"⟩] []
      ⟨some "a2", some "QQQ"⟩
      (.aggWarning ("Found coinbase pro account result with unknown asset " ++
        "QQQ" ++ ". Ignoring it.")) rfl).2

/-- Counterexample for C1: an order whose listed product pair contains an
unsupported asset makes query_online_trade_history raise UnsupportedAsset to
the caller (modelled by the .error result), instead of skipping that record
with a warning: only UnprocessableTradePair and UnknownAsset are caught
around the pair resolution. -/
theorem claim1_counterexample :
    query_online_trade_history sampleDeserial sampleResolver ["XXX-USD"]
      (fun _ => []) 0 100 [⟨some "XXX-USD"⟩] = .error "XXX" := by
  decide

/-- C1, amended: inside the per-record loops a caught failure (field
deserialization failure, missing key — and for movements, unknown assets can
only surface as an account id the cached map cannot resolve, which is
skipped with a warning) drops exactly that record, appends its non-empty
message batch to the sink, and leaves every other record of the run intact;
the movement query returns a plain result by construction. However, in
query_online_trade_history an unsupported asset inside a product pair is not
caught and propagates to the caller, aborting the whole query. -/
theorem claim1_per_record_isolation_amended :
    (∀ (d : Deserial) (amap : AccountMap) (startTs endTs : Nat)
       (xs ys : List TransferEntry) (entry : TransferEntry) (err : RecErr),
       processTransfer d amap startTs endTs entry = .failed err →
       (processTransfers d amap startTs endTs (xs ++ entry :: ys)).1 =
         (processTransfers d amap startTs endTs (xs ++ ys)).1
       ∧ (processTransfers d amap startTs endTs (xs ++ entry :: ys)).2 =
         (processTransfers d amap startTs endTs xs).2 ++ transferFailMsgs err ++
           (processTransfers d amap startTs endTs ys).2
       ∧ transferFailMsgs err ≠ [])
    ∧ (∀ (d : Deserial) (amap : AccountMap) (startTs endTs : Nat)
        (xs ys : List TransferEntry) (entry : TransferEntry),
        processTransfer d amap startTs endTs entry = .skipped .unmatchedAccount →
        (processTransfers d amap startTs endTs (xs ++ entry :: ys)).1 =
          (processTransfers d amap startTs endTs (xs ++ ys)).1
        ∧ (processTransfers d amap startTs endTs (xs ++ entry :: ys)).2 =
          (processTransfers d amap startTs endTs xs).2 ++
            transferSkipMsgs .unmatchedAccount ++
            (processTransfers d amap startTs endTs ys).2
        ∧ transferSkipMsgs Skip.unmatchedAccount ≠ [])
    ∧ (∀ (d : Deserial) (base quote : Asset) (startTs endTs : Nat)
        (xs ys : List FillEntry) (f : FillEntry) (err : RecErr),
        processFill d base quote startTs endTs f = .failed err →
        (processFills d base quote startTs endTs (xs ++ f :: ys)).1 =
          (processFills d base quote startTs endTs (xs ++ ys)).1
        ∧ (processFills d base quote startTs endTs (xs ++ f :: ys)).2 =
          (processFills d base quote startTs endTs xs).2 ++ fillFailMsgs err ++
            (processFills d base quote startTs endTs ys).2
        ∧ fillFailMsgs err ≠ [])
    ∧ (∀ (d : Deserial) (resolver : Resolver) (available queried : List String)
        (fillsFor : String → List FillEntry) (startTs endTs : Nat)
        (o : OrderEntry) (os : List OrderEntry) (pid aid : String),
        o.product_id = some pid → pid ∉ queried → pid ∈ available →
        coinbasepro_to_worldpair resolver pid =
          .error (.assetFailure (.unsupported aid)) →
        tradeLoop d resolver available fillsFor startTs endTs queried (o :: os) =
          .error aid) := by
  refine ⟨?_, ?_, ?_, ?_⟩
  · intro d amap startTs endTs xs ys entry err h
    refine ⟨?_, ?_, ?_⟩
    · simp [processTransfers_append, processTransfers, h]
    · simp [processTransfers_append, processTransfers, h]
    · cases err <;> simp [transferFailMsgs]
  · intro d amap startTs endTs xs ys entry h
    refine ⟨?_, ?_, ?_⟩
    · simp [processTransfers_append, processTransfers, h]
    · simp [processTransfers_append, processTransfers, h, transferSkipMsgs]
    · simp [transferSkipMsgs]
  · intro d base quote startTs endTs xs ys f err h
    refine ⟨?_, ?_, ?_⟩
    · simp [processFills_append, processFills, h]
    · simp [processFills_append, processFills, h]
    · cases err <;> simp [fillFailMsgs]
  · intro d resolver available queried fillsFor startTs endTs o os pid aid
      hpid hnq hav hpair
    have hq : ¬(pid ∈ queried ∨ pid ∉ available) := by
      push_neg
      exact ⟨hnq, hav⟩
    simp [tradeLoop, hpid, if_neg hq, hpair]

/-- Witness for C1: a movement entry with an undeserializable type is
dropped, leaving only the good record; a fill with an undeserializable side
yields no trade; and an unsupported product pair aborts the order loop with
the raised identifier. -/
theorem claim1_per_record_isolation_amended_witness :
    (processTransfers sampleDeserial [("a1", btcAsset)] 5 10
        [⟨some "7", some "bogus", some "a1", none, some "2", some "idB"⟩,
         ⟨some "5", some "withdraw", some "a1", none, some "2", some "id1"⟩]).1 =
      (processTransfers sampleDeserial [("a1", btcAsset)] 5 10
        [⟨some "5", some "withdraw", some "a1", none, some "2", some "id1"⟩]).1
    ∧ transferFailMsgs (.deserialization ⟨"bogus"⟩) ≠ []
    ∧ (processFills sampleDeserial btcAsset usdAsset 5 10
        [⟨some "7", some "hold", some "1", some "20", some "1", some "t1",
          some "o1"⟩]).1 =
      (processFills sampleDeserial btcAsset usdAsset 5 10 []).1
    ∧ tradeLoop sampleDeserial sampleResolver ["XXX-USD"] (fun _ => []) 0 100 []
        [⟨some "XXX-USD"⟩] = .error "XXX" := by
  have h1 := claim1_per_record_isolation_amended.1 sampleDeserial
    [("a1", btcAsset)] 5 10 []
    [⟨some "5", some "withdraw", some "a1", none, some "2", some "id1"⟩]
    ⟨some "7", some "bogus", some "a1", none, some "2", some "idB"⟩
    (.deserialization ⟨"bogus"⟩) rfl
  have h2 := claim1_per_record_isolation_amended.2.2.1 sampleDeserial
    btcAsset usdAsset 5 10 [] []
    ⟨some "7", some "hold", some "1", some "20", some "1", some "t1", some "o1"⟩
    (.deserialization ⟨"hold"⟩) rfl
  have h3 := claim1_per_record_isolation_amended.2.2.2 sampleDeserial
    sampleResolver ["XXX-USD"] [] (fun _ => []) 0 100 ⟨some "XXX-USD"⟩ []
    "XXX-USD" "XXX" rfl (by decide) (by decide) (by decide)
  exact ⟨h1.1, h1.2.2, h2.1, h3⟩

end CoinbasePro
